import Mathlib

/-!
Verification of the Qblox sequencer compiler
(`quantify_scheduler/backends/qblox/compiler_abc.py` and
`quantify_scheduler/backends/qblox_backend.py`).

The Python code is shallowly embedded: timings (seconds) are rationals,
nanosecond quantities are integers, fallible code returns `Except`.
Modules of this repository that are not available in the source tree
(`qblox/constants.py`, `qblox/helpers.py`, `qblox/qasm_program.py`,
`backends/types/qblox.py`) are modelled from the specification; each such
definition carries a doc comment starting with `Modelled from the spec:`.
-/

namespace Qblox

/-- Modelled from the spec: `constants.GRID_TIME`, the minimum schedulable
tick of the hardware in nanoseconds ("the grid-time constant (the minimum
schedulable tick, e.g., 4 ns)"). -/
def GRID_TIME : Int := 4

/-- Modelled from the spec: `constants.MAX_SAMPLE_SIZE_WAVEFORMS`, the
hardware's waveform-memory sample limit (`constants.py` is not in the
source tree; the concrete value is irrelevant to the claims). -/
def MAX_SAMPLE_SIZE_WAVEFORMS : Nat := 16384

/-- Modelled from the spec: `constants.MAX_NUMBER_OF_BINS`, the hardware's
maximum acquisition bin count. -/
def MAX_NUMBER_OF_BINS : Nat := 131072

/-- Python `round(t, ndigits=9)` on a timing in seconds, returned as integer
nanoseconds: the rational `t * 10^9` rounded half-to-even exactly as
Python's `round` does.  Computed on the numerator/denominator so the
kernel can evaluate it (the ℚ field operations are `irreducible`):
`t * 10^9 = (t.num * 10^9) / t.den` with `t.den > 0`. -/
def roundNs (t : ℚ) : Int :=
  let n : Int := t.num * 1000000000
  let d : Int := (t.den : Int)
  let f : Int := n.fdiv d
  let r : Int := n.fmod d
  if 2 * r < d then f
  else if d < 2 * r then f + 1
  else if f % 2 = 0 then f else f + 1

/-- Python `round(t, ndigits=9)` kept in seconds, as the Python code stores it. -/
def roundNsQ (t : ℚ) : ℚ := mkRat (roundNs t) 1000000000

/-- Modelled from the spec: `helpers.to_grid_time`, conversion of a time in
seconds "to the hardware time grid", i.e. integer nanoseconds. -/
def to_grid_time (t : ℚ) : Int := roundNs t

/-- Modelled from the spec: `helpers.is_within_half_grid_time`, whether two
times in seconds lie "within half a grid tick" of each other:
`|a - b| * 10^9 * 2 < GRID_TIME`, computed on numerators/denominators
(`a - b = (a.num * b.den - b.num * a.den) / (a.den * b.den)`, positive
denominator). -/
def is_within_half_grid_time (a b : ℚ) : Bool :=
  let n : Int := a.num * (b.den : Int) - b.num * (a.den : Int)
  let d : Int := (a.den : Int) * (b.den : Int)
  2 * 1000000000 * (n.natAbs : Int) < GRID_TIME * d

/-- The acquisition bin modes (`quantify_scheduler.enums.BinMode`):
"append" (one new bin per shot) and "average" (accumulate into a fixed
bin). -/
inductive BinMode where
  | append
  | average
deriving DecidableEq, Repr

/-- Modelled from the spec: `OpInfo` of `backends/types/qblox.py` (not in
the source tree) — one scheduled hardware-level event with its symbolic
name, timing and duration in seconds, protocol-specific `data` payload
(port, clock, acquisition channel, bin mode, `num_times`, presence of a
`wf_func` entry) and the flags `is_acquisition`,
`is_real_time_io_operation`, `is_offset_instruction` that the spec lists
as attributes. -/
structure OpInfo where
  name : String
  timing : ℚ
  duration : ℚ
  port : String := ""
  clock : String := ""
  is_acquisition : Bool := false
  is_real_time_io_operation : Bool := false
  is_offset_instruction : Bool := false
  /-- Whether `data.get("wf_func")` is not `None`. -/
  has_wf_func : Bool := false
  /-- `data["instruction"]` (empty when absent). -/
  instruction : String := ""
  acq_channel : Nat := 0
  acq_index : Nat := 0
  bin_mode : BinMode := .average
  /-- `data["protocol"]` for acquisitions. -/
  protocol : String := ""
  /-- `data["num_times"]` for the looped-periodic protocol. -/
  num_times : Nat := 0
deriving DecidableEq, Repr

/-- The sort key of `Sequencer.generate_qasm_program` (compiler_abc.py
lines 848–855): `(round(op.operation_info.timing, ndigits=9),
op.operation_info.is_real_time_io_operation)`. -/
def opSortKey (op : OpInfo) : Int × Bool :=
  (roundNs op.timing, op.is_real_time_io_operation)

/-- Python's lexicographic `≤` on the sort key, with `False < True`. -/
def opKeyLe (a b : OpInfo) : Bool :=
  roundNs a.timing < roundNs b.timing ||
    (roundNs a.timing == roundNs b.timing &&
      (!a.is_real_time_io_operation || b.is_real_time_io_operation))

/-- One operation strategy object (`IOperationStrategy`) as the sequencer
compiler sees it: its `operation_info`, and — since the concrete strategy
classes live outside the source tree — the effect of its `insert_qasm`
(instructions appended, elapsed time consumed) and of its `generate_data`
(waveform name/sample-count pairs) as data. -/
structure OpStrategy where
  operation_info : OpInfo
  /-- Payload of `insert_qasm`: opaque instruction texts appended. -/
  insertInstrs : List String := []
  /-- Elapsed nanoseconds that `insert_qasm` accounts for. -/
  insertElapsed : Int := 0
  /-- `generate_data`: waveform entries (name, number of samples). -/
  wf_entries : List (String × Nat) := []
deriving DecidableEq, Repr

/-- The comparator that the sort key of lines 848–855 induces on
strategy objects. -/
def opStrategyLe (a b : OpStrategy) : Bool :=
  opKeyLe a.operation_info b.operation_info

/-- Relation form of `opStrategyLe`, as a decidable relation, for use with the sort. -/
def opStrategyLeR (a b : OpStrategy) : Prop := opStrategyLe a b = true

instance : DecidableRel opStrategyLeR := fun a b =>
  instDecidableEqBool (opStrategyLe a b) true

/-- The merged and sorted operation list of `generate_qasm_program`
(lines 847–855): `sorted(pulses + acquisitions, key=...)`.  Python's
`sorted` is a stable sort by the key; a stable sort by a total preorder
has a unique output, so the (stable) insertion sort is a faithful model. -/
def sortOpList (pulses acquisitions : List OpStrategy) : List OpStrategy :=
  List.insertionSort opStrategyLeR (pulses ++ acquisitions)

theorem opKeyLe_trans (a b c : OpInfo) :
    opKeyLe a b → opKeyLe b c → opKeyLe a c := by
  simp only [opKeyLe, Bool.or_eq_true, decide_eq_true_eq, Bool.and_eq_true,
    beq_iff_eq, Bool.not_eq_true', Bool.or_eq_true]
  intro hab hbc
  rcases hab with h1 | ⟨h1, h1'⟩ <;> rcases hbc with h2 | ⟨h2, h2'⟩
  · exact Or.inl (by omega)
  · exact Or.inl (by omega)
  · exact Or.inl (by omega)
  · refine Or.inr ⟨by omega, ?_⟩
    rcases h1' with h | h
    · exact Or.inl h
    · rcases h2' with h' | h'
      · rw [h] at h'
        exact absurd h' (by decide)
      · exact Or.inr h'

theorem opKeyLe_total (a b : OpInfo) : opKeyLe a b || opKeyLe b a := by
  simp only [opKeyLe, Bool.or_eq_true, decide_eq_true_eq, Bool.and_eq_true,
    beq_iff_eq, Bool.not_eq_true']
  rcases lt_trichotomy (roundNs a.timing) (roundNs b.timing) with h | h | h
  · exact Or.inl (Or.inl h)
  · cases ha : a.is_real_time_io_operation <;>
      cases hb : b.is_real_time_io_operation
    · exact Or.inl (Or.inr ⟨h, Or.inl rfl⟩)
    · exact Or.inl (Or.inr ⟨h, Or.inl rfl⟩)
    · exact Or.inr (Or.inr ⟨h.symm, Or.inl rfl⟩)
    · exact Or.inl (Or.inr ⟨h, Or.inr rfl⟩)
  · exact Or.inr (Or.inl h)

instance : IsTotal OpStrategy opStrategyLeR :=
  ⟨fun a b => by
    have h := opKeyLe_total a.operation_info b.operation_info
    rcases Bool.or_eq_true_iff.mp h with h | h
    · exact Or.inl h
    · exact Or.inr h⟩

instance : IsTrans OpStrategy opStrategyLeR :=
  ⟨fun a b c hab hbc =>
    opKeyLe_trans a.operation_info b.operation_info c.operation_info hab hbc⟩

/-- The sorted list is pairwise ordered by the key. -/
theorem sortOpList_pairwise (pulses acquisitions : List OpStrategy) :
    (sortOpList pulses acquisitions).Pairwise opStrategyLeR :=
  List.sorted_insertionSort opStrategyLeR (pulses ++ acquisitions)

/-- Concrete input for the operation-ordering witness: a real-time play
operation and a virtual offset instruction at the same 10 ns timing. -/
def c1pulses : List OpStrategy :=
  [ { operation_info :=
        { name := "play", timing := mkRat 10 1000000000, duration := mkRat 16 1000000000,
          is_real_time_io_operation := true, has_wf_func := true } },
    { operation_info :=
        { name := "offset", timing := mkRat 10 1000000000, duration := 0,
          is_offset_instruction := true } } ]

/-- C1. For every sequencer, the merged list of pulse and acquisition
operations of `generate_qasm_program` is emitted in ascending order of the
key (timing rounded to nanoseconds, `is_real_time_io_operation`); in
particular, whenever two operations' timings round to the same nanosecond
and one is a non-real-time (virtual/offset) instruction while the other is
a real-time I/O instruction, the non-real-time instruction occupies an
earlier position in the emitted operation list. -/
theorem sortOpList_virtual_before_real_time
    (pulses acquisitions : List OpStrategy)
    (i j : Fin (sortOpList pulses acquisitions).length)
    (ht : roundNs (((sortOpList pulses acquisitions).get i).operation_info.timing)
        = roundNs (((sortOpList pulses acquisitions).get j).operation_info.timing))
    (hvirt : ((sortOpList pulses acquisitions).get i).operation_info.is_real_time_io_operation
        = false)
    (hio : ((sortOpList pulses acquisitions).get j).operation_info.is_real_time_io_operation
        = true) :
    i < j ∧ (sortOpList pulses acquisitions).Pairwise opStrategyLeR := by
  have hp := sortOpList_pairwise pulses acquisitions
  refine ⟨?_, hp⟩
  rcases lt_trichotomy i j with h | h | h
  · exact h
  · rw [h, hio] at hvirt
    exact absurd hvirt (by decide)
  · exfalso
    have hle := (List.pairwise_iff_get.mp hp) j i h
    simp only [opStrategyLeR, opStrategyLe, opKeyLe, hio, hvirt, Bool.not_true,
      Bool.or_false, Bool.and_false, Bool.or_eq_true, decide_eq_true_eq] at hle
    omega

/-- Witness for C1: on `c1pulses` the sorted list puts the offset
instruction (position 0) before the play instruction (position 1). -/
theorem sortOpList_virtual_before_real_time_witness :
    (⟨0, by decide⟩ : Fin (sortOpList c1pulses []).length) < ⟨1, by decide⟩ ∧
      (sortOpList c1pulses []).Pairwise opStrategyLeR :=
  sortOpList_virtual_before_real_time c1pulses [] ⟨0, by decide⟩ ⟨1, by decide⟩
    (by decide) (by decide) (by decide)

/-- One line of the generated Q1ASM program.  Instructions emitted by an
operation strategy's `insert_qasm` (whose classes live outside the source
tree) are carried as opaque `strategy` lines. -/
inductive Instr where
  | set_mrk (mask : Nat)
  | wait_sync (ns : Int)
  | upd_param (ns : Int)
  | move (value : Int) (reg : Nat)
  | loopLabel (label : String)
  | reset_ph
  | wait (ns : Int)
  | loopEnd (reg : Nat) (label : String)
  | stop
  | strategy (text : String)
deriving DecidableEq, Repr

/-- The state of a `QASMProgram` under construction: the emitted
instructions, the elapsed time bookkeeping (integer nanoseconds), and the
register manager's next free register (the spec's "register allocator:
assigns scratch registers per sequencer").  `loopReg` remembers the
register holding the repetition counter once the loop is opened. -/
structure QState where
  instructions : List Instr
  elapsed_time : Int
  nextReg : Nat
  loopReg : Nat := 0
deriving DecidableEq, Repr

/-- The fatal timing errors of program generation. -/
inductive QasmError where
  /-- An operation's start time lies before the already elapsed time. -/
  | negativeWaitOperation (opName : String) (wait_ns : Int)
  /-- Lines 915–921: the residual wait to the end of the schedule is
      negative (`RuntimeError`), carrying the attempted wait, the total
      duration on the grid and the time already processed. -/
  | invalidTiming (wait_time : Int) (end_time : Int) (elapsed : Int)
deriving DecidableEq, Repr

/-- Embeds `QASMProgram.emit`: append one instruction (elapsed time is only ever
advanced explicitly, cf. line 909 where the caller adds the time of an
emitted `upd_param` itself). -/
def emit (st : QState) (i : Instr) : QState :=
  { st with instructions := st.instructions ++ [i] }

/-- Modelled from the spec: `QASMProgram.auto_wait` — emit a `wait`
advancing by `wait_ns` (no instruction for a zero wait), counted towards
the elapsed time only when `count` is set (the latency-correction wait of
lines 862–867 passes `count_as_elapsed_time=False`). -/
def auto_wait (st : QState) (wait_ns : Int) (count : Bool) : QState :=
  let st' := if 0 < wait_ns then emit st (.wait wait_ns) else st
  if count then { st' with elapsed_time := st'.elapsed_time + wait_ns } else st'

/-- Modelled from the spec: `QASMProgram.wait_till_start_operation` —
"emitting a `wait` to advance to each operation's start time before
emitting the operation's own instructions"; a start time on the grid that
lies before the elapsed time is a fatal timing error. -/
def wait_till_start_operation (st : QState) (op : OpInfo) : Except QasmError QState :=
  let wait_ns := to_grid_time op.timing - st.elapsed_time
  if wait_ns < 0 then .error (.negativeWaitOperation op.name wait_ns)
  else .ok (auto_wait st wait_ns true)

/-- The effect of `operation.insert_qasm(qasm)`: the strategy's
instructions are appended and its elapsed time accounted. -/
def applyInsert (op : OpStrategy) (st : QState) : QState :=
  { st with
    instructions := st.instructions ++ op.insertInstrs.map Instr.strategy
    elapsed_time := st.elapsed_time + op.insertElapsed }

/-- The sequencer-level inputs of `generate_qasm_program` and `compile`:
the sequencer's identity, assigned strategies, settings, and the
module-level facts it reads from `self.parent`. -/
structure SequencerModel where
  index : Nat := 0
  port : String := ""
  clock : String := ""
  pulses : List OpStrategy := []
  acquisitions : List OpStrategy := []
  latency_correction : ℚ := mkRat 0 1
  marker_debug_mode_enable : Bool := false
  default_marker : Nat := 0
  instrument_type : String := "QCM"
  connected_outputs : List Nat := []
  /-- `self.parent.supports_acquisition`. -/
  parent_supports_acquisition : Bool := false
deriving DecidableEq, Repr

/-- Embeds `Sequencer._decide_markers` (lines 1133–1176): the marker bitmask
pulled high around an operation in marker debug mode, per instrument
type (`0b1100 = 12`, `0b0011 = 3`, `0b1011 = 11`, `0b0111 = 7`). -/
def _decide_markers (seq : SequencerModel) (op : OpStrategy) : Nat :=
  if seq.instrument_type = "QCM" then
    seq.connected_outputs.foldl (fun m output => m ||| (1 <<< output)) 0
  else if seq.instrument_type = "QRM" then
    (if op.operation_info.is_acquisition then 12 else 3)
  else if seq.instrument_type = "QCM-RF" then
    seq.connected_outputs.foldl
      (fun m output => (m ||| (1 <<< (output + 2))) ||| seq.default_marker) 0
  else if seq.instrument_type = "QRM-RF" then
    (if op.operation_info.is_acquisition then 11 else 7)
  else 0

/-- The loop body of lines 875–911 for one operation: wait until its start
time, then emit its instructions — unless marker debug mode is enabled and
the operation is neither an acquisition nor has a `wf_func` entry, in
which case `insert_qasm` is not invoked at all.  (The overlap check of
lines 878–893 only emits a `RuntimeWarning` and never changes the
program, so it is not modelled.) -/
def processOperation (seq : SequencerModel) (st : QState) (op : OpStrategy) :
    Except QasmError QState :=
  match wait_till_start_operation st op.operation_info with
  | .error e => .error e
  | .ok st =>
    if seq.marker_debug_mode_enable then
      if op.operation_info.is_acquisition || op.operation_info.has_wf_func then
        let st := emit st (.set_mrk (_decide_markers seq op))
        let st := applyInsert op st
        let st := emit st (.set_mrk seq.default_marker)
        let st := emit st (.upd_param GRID_TIME)
        .ok { st with elapsed_time := st.elapsed_time + GRID_TIME }
      else
        .ok st
    else
      .ok (applyInsert op st)

/-- Embeds `Sequencer._get_latency_correction_ns` (lines 985–999); the
non-multiple-of-grid-time case only logs a warning. -/
def _get_latency_correction_ns (latency_correction : ℚ) : Int :=
  if latency_correction = mkRat 0 1 then 0 else roundNs latency_correction

/-- Embeds `Sequencer._initialize_append_mode_registers` (lines 950–983): one
`move 0, R` per distinct acquisition channel used in append bin mode,
allocating a fresh register per channel.  (The `bin_idx_register`
assignment on the strategy objects has no effect on the emitted
program.) -/
def _initialize_append_mode_registers (st : QState) (acquisitions : List OpStrategy) :
    QState :=
  (acquisitions.foldl
    (fun (p : QState × List Nat) acq =>
      if acq.operation_info.bin_mode ≠ BinMode.append then p
      else if p.2.contains acq.operation_info.acq_channel then p
      else
        let reg := p.1.nextReg
        ({ emit p.1 (.move 0 reg) with nextReg := reg + 1 },
          acq.operation_info.acq_channel :: p.2))
    (st, [])).1

/-- The program state after the header of `generate_qasm_program`
(lines 831–871 and the loop preamble of lines 869–871): initial marker,
`wait_sync`, `upd_param`, append-mode register initialization, the
latency-correction wait of `GRID_TIME + latency_ns` (not counted as
elapsed), the repetition loop's `move` and label, `reset_ph` and
`upd_param`. -/
def qasmBodyStart (seq : SequencerModel) (repetitions : Nat) : QState :=
  let st : QState := { instructions := [], elapsed_time := 0, nextReg := 0 }
  let st := emit st (.set_mrk seq.default_marker)
  let st := emit st (.wait_sync GRID_TIME)
  let st := emit st (.upd_param GRID_TIME)
  let st := _initialize_append_mode_registers st seq.acquisitions
  let latency_ns := _get_latency_correction_ns seq.latency_correction
  let st := auto_wait st (GRID_TIME + latency_ns) false
  let loopReg := st.nextReg
  let st := { st with nextReg := loopReg + 1, loopReg := loopReg }
  let st := emit st (.move (repetitions : Int) loopReg)
  let st := emit st (.loopLabel "start")
  let st := emit st (.reset_ph)
  let st := emit st (.upd_param GRID_TIME)
  st

/-- The program state after the sorted operation queue of lines 874–911
has been drained. -/
def qasmAfterBody (seq : SequencerModel) (repetitions : Nat) :
    Except QasmError QState :=
  (sortOpList seq.pulses seq.acquisitions).foldlM (processOperation seq)
    (qasmBodyStart seq repetitions)

/-- Embeds `Sequencer.generate_qasm_program` (lines 779–948): header, sorted
operation queue, residual wait to `total_sequence_time` on the grid
(fatal `RuntimeError` when negative, lines 913–921), loop close and
`stop`.  The instruction-count ceiling check of lines 932–946 only warns,
and the `qasm_hook_func` of line 927 is `None` by default; neither
changes the emitted program. -/
def generate_qasm_program (seq : SequencerModel) (total_sequence_time : ℚ)
    (repetitions : Nat) : Except QasmError (List Instr) :=
  match qasmAfterBody seq repetitions with
  | .error e => .error e
  | .ok st =>
    let end_time := to_grid_time total_sequence_time
    let wait_time := end_time - st.elapsed_time
    if wait_time < 0 then
      .error (.invalidTiming wait_time end_time st.elapsed_time)
    else
      let st := auto_wait st wait_time true
      let st := emit st (.loopEnd st.loopReg "start")
      let st := emit st (.stop)
      .ok st.instructions

/-- C2. After all operations in the queue have been emitted inside the
repetition loop, `generate_qasm_program` computes the residual wait as
`total_play_time` on the hardware time grid minus the elapsed time; a
negative residual is a fatal `RuntimeError` carrying the attempted wait,
total duration and elapsed time (and no program is produced), otherwise a
wait of exactly that residual is emitted (via `auto_wait`) before the
loop is closed. -/
theorem generate_qasm_program_residual_wait
    (seq : SequencerModel) (total_sequence_time : ℚ) (repetitions : Nat)
    (st : QState) (hbody : qasmAfterBody seq repetitions = .ok st) :
    (to_grid_time total_sequence_time - st.elapsed_time < 0 →
      generate_qasm_program seq total_sequence_time repetitions =
        .error (.invalidTiming (to_grid_time total_sequence_time - st.elapsed_time)
          (to_grid_time total_sequence_time) st.elapsed_time)) ∧
    (0 ≤ to_grid_time total_sequence_time - st.elapsed_time →
      generate_qasm_program seq total_sequence_time repetitions =
        .ok ((auto_wait st (to_grid_time total_sequence_time - st.elapsed_time)
              true).instructions
          ++ [Instr.loopEnd st.loopReg "start", Instr.stop])) := by
  constructor
  · intro hneg
    simp only [generate_qasm_program, hbody, if_pos hneg]
  · intro hpos
    have hnot : ¬ (to_grid_time total_sequence_time - st.elapsed_time < 0) := by omega
    have hreg : (auto_wait st (to_grid_time total_sequence_time - st.elapsed_time)
        true).loopReg = st.loopReg := by
      unfold auto_wait emit
      split <;> rfl
    simp only [generate_qasm_program, hbody, if_neg hnot]
    simp [emit, hreg]

/-- Concrete sequencer for the residual-wait witness: no operations, zero
latency correction. -/
def c2seq : SequencerModel := {}

/-- Witness for C2: compiling `c2seq` against a 16 ns total play time
leaves a residual of 16 ns, and the emitted program ends in the 16 ns
wait, the loop-closing instruction and `stop`. -/
theorem generate_qasm_program_residual_wait_witness :
    0 ≤ to_grid_time (mkRat 16 1000000000) - (qasmBodyStart c2seq 1).elapsed_time ∧
    generate_qasm_program c2seq (mkRat 16 1000000000) 1 =
      .ok ((auto_wait (qasmBodyStart c2seq 1)
            (to_grid_time (mkRat 16 1000000000) -
              (qasmBodyStart c2seq 1).elapsed_time) true).instructions
        ++ [Instr.loopEnd (qasmBodyStart c2seq 1).loopReg "start", Instr.stop]) :=
  ⟨by decide,
   (generate_qasm_program_residual_wait c2seq (mkRat 16 1000000000) 1
      (qasmBodyStart c2seq 1) rfl).2 (by decide)⟩

/-- C9. In marker debug mode, an operation that is neither an
acquisition nor a waveform-producing pulse (no `wf_func` in its data)
contributes no instructions of its own: processing it is exactly the
advancing wait, its `insert_qasm` never being invoked — whereas with
marker debug mode disabled the same operation's instructions are
emitted. -/
theorem marker_debug_skips_non_waveform_operations
    (seq : SequencerModel) (st : QState) (op : OpStrategy)
    (hacq : op.operation_info.is_acquisition = false)
    (hwf : op.operation_info.has_wf_func = false) :
    (seq.marker_debug_mode_enable = true →
      processOperation seq st op = wait_till_start_operation st op.operation_info) ∧
    (seq.marker_debug_mode_enable = false →
      processOperation seq st op =
        (wait_till_start_operation st op.operation_info).map (applyInsert op)) := by
  constructor <;> intro hmode <;>
    cases h : wait_till_start_operation st op.operation_info <;>
      simp [processOperation, h, hmode, hacq, hwf, Except.map]

/-- Concrete sequencer/operation for the marker-debug witness: a virtual
offset instruction whose strategy would emit one line. -/
def c9op : OpStrategy :=
  { operation_info :=
      { name := "offset", timing := mkRat 4 1000000000, duration := 0,
        is_offset_instruction := true },
    insertInstrs := ["set_awg_offs 1000,0"] }

/-- Sequencer with marker debug mode enabled, for the C9 witness. -/
def c9seq : SequencerModel := { marker_debug_mode_enable := true }

/-- Witness for C9: with marker debug enabled the offset operation's
instructions are dropped (only the advancing wait remains). -/
theorem marker_debug_skips_non_waveform_operations_witness :
    processOperation c9seq ({ instructions := [], elapsed_time := 0, nextReg := 0 }) c9op =
      wait_till_start_operation ({ instructions := [], elapsed_time := 0, nextReg := 0 })
        c9op.operation_info :=
  (marker_debug_skips_non_waveform_operations c9seq
      ({ instructions := [], elapsed_time := 0, nextReg := 0 }) c9op rfl rfl).1 rfl

/-- Embeds the `Sequencer.name` property (line 480), the Python f-string of seq and the index. -/
def seqName (seq : SequencerModel) : String := "seq" ++ toString seq.index

/-- Python's `min` over a non-empty list (Python raises on an empty list;
the acquisition metadata never yields one, and every theorem below
assumes non-emptiness where it matters). -/
def pyMin (l : List Nat) : Nat :=
  match l with
  | [] => 0
  | x :: xs => xs.foldl Nat.min x

/-- Python's `max` over a non-empty list. -/
def pyMax (l : List Nat) : Nat :=
  match l with
  | [] => 0
  | x :: xs => xs.foldl Nat.max x

/-- The fatal errors of `Sequencer._generate_acq_declaration_dict`
(lines 684–776), carrying the fields its `ValueError` messages name. -/
inductive AcqDeclError where
  /-- Lines 723–730: lowest acquisition index is not 0. -/
  | lowestIndexNotZero (minFound : Nat) (channel : Nat) (port clock seq_name : String)
  /-- Lines 731–739: number of indices does not match `max + 1`. -/
  | indexCountMismatch (maxFound count : Nat) (channel : Nat) (port clock seq_name : String)
  /-- Lines 740–749: duplicated indices. -/
  | duplicateIndices (uniqueCount count : Nat) (channel : Nat) (port clock seq_name : String)
  /-- Lines 765–769: only one acquisition is allowed with the
      looped-periodic protocol. -/
  | loopedPeriodicMultipleAcquisitions
deriving DecidableEq, Repr

instance : Inhabited OpInfo :=
  ⟨{ name := "", timing := mkRat 0 1, duration := mkRat 0 1 }⟩

instance {ε α : Type} [DecidableEq ε] [DecidableEq α] :
    DecidableEq (Except ε α) := fun a b =>
  match a, b with
  | .error e, .error f =>
    match decEq e f with
    | isTrue h => isTrue (by rw [h])
    | isFalse h => isFalse (by intro hc; cases hc; exact h rfl)
  | .error _, .ok _ => isFalse (by intro hc; cases hc)
  | .ok _, .error _ => isFalse (by intro hc; cases hc)
  | .ok x, .ok y =>
    match decEq x y with
    | isTrue h => isTrue (by rw [h])
    | isFalse h => isFalse (by intro hc; cases hc; exact h rfl)

/-- The body of the per-channel loop of `_generate_acq_declaration_dict`
(lines 721–774): the three density sanity checks, the bin count per bin
mode (`NotImplementedError` for other bin modes is unreachable here since
`BinMode` has exactly the two constructors), and the looped-periodic
override.  Returns the channel's `(num_bins, index)` entry. -/
def declForChannel (seq : SequencerModel) (repetitions : Nat)
    (acq_protocol : String) (bin_mode : BinMode)
    (acquisition_infos : List OpInfo)
    (acq_channel : Nat) (acq_indices : List Nat) :
    Except AcqDeclError (Nat × Nat) :=
  if pyMin acq_indices ≠ 0 then
    .error (.lowestIndexNotZero (pyMin acq_indices) acq_channel
      seq.port seq.clock (seqName seq))
  else if acq_indices.length ≠ pyMax acq_indices + 1 then
    .error (.indexCountMismatch (pyMax acq_indices) acq_indices.length acq_channel
      seq.port seq.clock (seqName seq))
  else if acq_indices.length ≠ acq_indices.dedup.length then
    .error (.duplicateIndices acq_indices.dedup.length acq_indices.length acq_channel
      seq.port seq.clock (seqName seq))
  else
    -- `num_bins` of lines 752–763 is only observable in the non-looped
    -- branch (the looped-periodic protocol overrides it, line 770), so the
    -- match is inlined there.
    if acq_protocol = "looped_periodic_acquisition" then
      if 1 < acquisition_infos.length then
        .error .loopedPeriodicMultipleAcquisitions
      else
        .ok ((acquisition_infos.headD default).num_times, acq_channel)
    else
      .ok ((match bin_mode with
        | .append => repetitions * (pyMax acq_indices + 1)
        | .average =>
          if acq_protocol = "TriggerCount" then MAX_NUMBER_OF_BINS
          else pyMax acq_indices + 1), acq_channel)

/-- Embeds `Sequencer._generate_acq_declaration_dict` (lines 684–776) over the
extracted acquisition metadata (`helpers.extract_acquisition_metadata_from_acquisitions`
is not in the source tree; its per-channel index map, protocol and bin
mode are taken as inputs).  The result maps each acquisition channel
(Python uses `str(acq_channel)` as key) to its declared bin count. -/
def _generate_acq_declaration_dict (seq : SequencerModel) (repetitions : Nat)
    (acq_protocol : String) (bin_mode : BinMode)
    (acquisition_infos : List OpInfo)
    (acq_indices : List (Nat × List Nat)) :
    Except AcqDeclError (List (Nat × Nat)) :=
  match acq_indices with
  | [] => .ok []
  | (ch, idxs) :: rest =>
    match declForChannel seq repetitions acq_protocol bin_mode acquisition_infos
        ch idxs with
    | .error e => .error e
    | .ok d =>
      match _generate_acq_declaration_dict seq repetitions acq_protocol bin_mode
          acquisition_infos rest with
      | .error e => .error e
      | .ok ds => .ok ((ch, d.1) :: ds)

/-- The channel/port/clock/sequencer fields named by a density-validation
error (and `none` for the non-density error). -/
def densityErrorChannel : AcqDeclError → Option (Nat × String × String × String)
  | .lowestIndexNotZero _ ch p c s => some (ch, p, c, s)
  | .indexCountMismatch _ _ ch p c s => some (ch, p, c, s)
  | .duplicateIndices _ _ ch p c s => some (ch, p, c, s)
  | .loopedPeriodicMultipleAcquisitions => none

/-- The claim's dense-0-based-range condition on a channel's acquisition
indices: `sorted(set(indices)) == list(range(0, max(indices)+1))` — i.e.
the set of indices is exactly `{0, …, max}` — with no duplicates. -/
def denseIndices (l : List Nat) : Prop :=
  l.toFinset = Finset.range (pyMax l + 1) ∧ l.Nodup

instance (l : List Nat) : Decidable (denseIndices l) := by
  unfold denseIndices
  infer_instance

theorem foldl_max_init_le (l : List Nat) : ∀ a, a ≤ l.foldl Nat.max a := by
  induction l with
  | nil => simp
  | cons x xs ih =>
    intro a
    simp only [List.foldl_cons]
    exact le_trans (Nat.le_max_left a x) (ih (Nat.max a x))

theorem foldl_max_le (l : List Nat) : ∀ a, ∀ x ∈ l, x ≤ l.foldl Nat.max a := by
  induction l with
  | nil => simp
  | cons y ys ih =>
    intro a x hx
    simp only [List.foldl_cons]
    rcases List.mem_cons.mp hx with h | h
    · subst h
      exact le_trans (Nat.le_max_right a x) (foldl_max_init_le ys _)
    · exact ih _ x h

theorem foldl_min_le_init (l : List Nat) : ∀ a, l.foldl Nat.min a ≤ a := by
  induction l with
  | nil => simp
  | cons x xs ih =>
    intro a
    simp only [List.foldl_cons]
    exact le_trans (ih (Nat.min a x)) (Nat.min_le_left a x)

theorem foldl_min_le (l : List Nat) : ∀ a, ∀ x ∈ l, l.foldl Nat.min a ≤ x := by
  induction l with
  | nil => simp
  | cons y ys ih =>
    intro a x hx
    simp only [List.foldl_cons]
    rcases List.mem_cons.mp hx with h | h
    · subst h
      exact le_trans (foldl_min_le_init ys _) (Nat.min_le_right a x)
    · exact ih _ x h

theorem le_pyMax (l : List Nat) (x : Nat) (hx : x ∈ l) : x ≤ pyMax l := by
  match l with
  | y :: ys =>
    rcases List.mem_cons.mp hx with h | h
    · subst h
      exact foldl_max_init_le ys x
    · exact foldl_max_le ys y x h

theorem pyMin_le (l : List Nat) (x : Nat) (hx : x ∈ l) : pyMin l ≤ x := by
  match l with
  | y :: ys =>
    rcases List.mem_cons.mp hx with h | h
    · subst h
      exact foldl_min_le_init ys x
    · exact foldl_min_le ys y x h

/-- The three sanity checks of lines 722–749 pass exactly when the
channel's indices are a dense 0-based range with no duplicates. -/
theorem checks_iff_dense (l : List Nat) :
    (pyMin l = 0 ∧ l.length = pyMax l + 1 ∧ l.length = l.dedup.length) ↔
      denseIndices l := by
  constructor
  · rintro ⟨_hmin, hlen, hdl⟩
    have heq : l.dedup = l := (List.dedup_sublist l).eq_of_length hdl.symm
    have hnd : l.Nodup := heq ▸ List.nodup_dedup l
    refine ⟨?_, hnd⟩
    have hcard : l.toFinset.card = l.length := List.toFinset_card_of_nodup hnd
    have hss : l.toFinset ⊆ Finset.range (pyMax l + 1) := by
      intro x hx
      rw [List.mem_toFinset] at hx
      rw [Finset.mem_range]
      exact Nat.lt_succ_of_le (le_pyMax l x hx)
    refine Finset.eq_of_subset_of_card_le hss ?_
    rw [Finset.card_range, hcard]
    omega
  · rintro ⟨hfin, hnd⟩
    have hcard : l.toFinset.card = l.length := List.toFinset_card_of_nodup hnd
    have hlen : l.length = pyMax l + 1 := by
      rw [← hcard, hfin, Finset.card_range]
    have h0l : (0 : Nat) ∈ l := by
      rw [← List.mem_toFinset, hfin, Finset.mem_range]
      omega
    have hmin : pyMin l = 0 :=
      Nat.le_antisymm (pyMin_le l 0 h0l) (Nat.zero_le _)
    have hdl : l.length = l.dedup.length := by
      rw [List.dedup_eq_self.mpr hnd]
    exact ⟨hmin, hlen, hdl⟩

theorem declForChannel_density_error_of_not_checks
    (seq : SequencerModel) (repetitions : Nat) (acq_protocol : String)
    (bin_mode : BinMode) (acquisition_infos : List OpInfo)
    (ch : Nat) (idxs : List Nat)
    (h : ¬ (pyMin idxs = 0 ∧ idxs.length = pyMax idxs + 1 ∧
        idxs.length = idxs.dedup.length)) :
    ∃ e, declForChannel seq repetitions acq_protocol bin_mode acquisition_infos
        ch idxs = .error e ∧
      densityErrorChannel e = some (ch, seq.port, seq.clock, seqName seq) := by
  by_cases h1 : pyMin idxs = 0
  · by_cases h2 : idxs.length = pyMax idxs + 1
    · by_cases h3 : idxs.length = idxs.dedup.length
      · exact absurd ⟨h1, h2, h3⟩ h
      · refine ⟨.duplicateIndices idxs.dedup.length idxs.length ch
          seq.port seq.clock (seqName seq), ?_, rfl⟩
        unfold declForChannel
        rw [if_neg (by simp [h1]), if_neg (by simp [h2]), if_pos h3]
    · refine ⟨.indexCountMismatch (pyMax idxs) idxs.length ch
        seq.port seq.clock (seqName seq), ?_, rfl⟩
      unfold declForChannel
      rw [if_neg (by simp [h1]), if_pos h2]
  · refine ⟨.lowestIndexNotZero (pyMin idxs) ch
      seq.port seq.clock (seqName seq), ?_, rfl⟩
    unfold declForChannel
    rw [if_pos h1]

theorem declForChannel_no_density_error_of_checks
    (seq : SequencerModel) (repetitions : Nat) (acq_protocol : String)
    (bin_mode : BinMode) (acquisition_infos : List OpInfo)
    (ch : Nat) (idxs : List Nat)
    (h1 : pyMin idxs = 0) (h2 : idxs.length = pyMax idxs + 1)
    (h3 : idxs.length = idxs.dedup.length)
    (e : AcqDeclError)
    (he : declForChannel seq repetitions acq_protocol bin_mode acquisition_infos
        ch idxs = .error e) :
    densityErrorChannel e = none := by
  unfold declForChannel at he
  rw [if_neg (by simp [h1]), if_neg (by simp [h2]), if_neg (by simp [h3])] at he
  by_cases hp : acq_protocol = "looped_periodic_acquisition"
  · rw [if_pos hp] at he
    by_cases hl : 1 < acquisition_infos.length
    · rw [if_pos hl] at he
      cases he
      rfl
    · rw [if_neg hl] at he
      simp at he
  · rw [if_neg hp] at he
    simp at he

/-- C4. For every acquisition channel of a sequencer, a
density-validation error (identifying the channel, port, clock and
sequencer) is raised exactly when the channel's indices fail to form a
dense 0-based range (a gap, a duplicate, or a nonzero minimum); and when
they do fail, no declaration dict is produced for the sequencer at all.
(The non-emptiness hypothesis reflects that Python's `min`/`max` fail on
an empty index list, which the extracted metadata never produces.) -/
theorem acq_indices_dense_validation
    (seq : SequencerModel) (repetitions : Nat) (acq_protocol : String)
    (bin_mode : BinMode) (acquisition_infos : List OpInfo)
    (ch : Nat) (idxs : List Nat) (hne : idxs ≠ []) :
    ((∃ e, declForChannel seq repetitions acq_protocol bin_mode acquisition_infos
        ch idxs = .error e ∧
        densityErrorChannel e = some (ch, seq.port, seq.clock, seqName seq)) ↔
      ¬ denseIndices idxs) ∧
    (¬ denseIndices idxs →
      ∀ acq_indices : List (Nat × List Nat), (ch, idxs) ∈ acq_indices →
        ∃ e, _generate_acq_declaration_dict seq repetitions acq_protocol bin_mode
          acquisition_infos acq_indices = .error e) := by
  have key : (∃ e, declForChannel seq repetitions acq_protocol bin_mode
      acquisition_infos ch idxs = .error e ∧
      densityErrorChannel e = some (ch, seq.port, seq.clock, seqName seq)) ↔
      ¬ denseIndices idxs := by
    constructor
    · rintro ⟨e, he, hde⟩ hdense
      obtain ⟨h1, h2, h3⟩ := (checks_iff_dense idxs).mpr hdense
      rw [declForChannel_no_density_error_of_checks seq repetitions acq_protocol
        bin_mode acquisition_infos ch idxs h1 h2 h3 e he] at hde
      cases hde
    · intro hdense
      refine declForChannel_density_error_of_not_checks seq repetitions acq_protocol
        bin_mode acquisition_infos ch idxs ?_
      intro hchecks
      exact hdense ((checks_iff_dense idxs).mp hchecks)
  refine ⟨key, ?_⟩
  intro hdense acqIdx hmem
  obtain ⟨e0, he0, -⟩ := key.mpr hdense
  induction acqIdx with
  | nil => cases hmem
  | cons p rest ih =>
    obtain ⟨ch', idxs'⟩ := p
    rcases List.mem_cons.mp hmem with h | h
    · cases h
      exact ⟨e0, by simp [_generate_acq_declaration_dict, he0]⟩
    · cases hdc : declForChannel seq repetitions acq_protocol bin_mode
          acquisition_infos ch' idxs' with
      | error e => exact ⟨e, by simp [_generate_acq_declaration_dict, hdc]⟩
      | ok d =>
        obtain ⟨e, he⟩ := ih h
        exact ⟨e, by simp [_generate_acq_declaration_dict, hdc, he]⟩

/-- Witness for C4: the gapped index list `[0, 2]` on channel 0 triggers a
density error naming channel 0, the (empty) port and clock, and `seq0`. -/
theorem acq_indices_dense_validation_witness :
    ∃ e, declForChannel {} 1 "SSBIntegrationComplex" BinMode.average [] 0 [0, 2] =
        .error e ∧
      densityErrorChannel e = some (0, "", "", "seq0") :=
  ((acq_indices_dense_validation {} 1 "SSBIntegrationComplex" BinMode.average []
      0 [0, 2] (by decide)).1).mpr (by decide)

/-- C3. For a declared acquisition channel, the number of bins is
`repetitions × (max index + 1)` in append mode and `max index + 1` in
average mode — except the trigger-count protocol in average mode, which
reserves the hardware's maximum bin count; the looped-periodic protocol
overrides the bin count to the operation's `num_times` and it is a fatal
error for such an acquisition to co-exist with any other acquisition (in
particular with another acquisition on the same channel). -/
theorem acq_declaration_num_bins
    (seq : SequencerModel) (repetitions : Nat) (acq_protocol : String)
    (bin_mode : BinMode) (acquisition_infos : List OpInfo) :
    (∀ ch idxs d,
      declForChannel seq repetitions acq_protocol bin_mode acquisition_infos
          ch idxs = .ok d →
        (acq_protocol = "looped_periodic_acquisition" →
          acquisition_infos.length ≤ 1 ∧
          d.1 = (acquisition_infos.headD default).num_times) ∧
        (acq_protocol ≠ "looped_periodic_acquisition" →
          (bin_mode = .append → d.1 = repetitions * (pyMax idxs + 1)) ∧
          (bin_mode = .average → acq_protocol = "TriggerCount" →
            d.1 = MAX_NUMBER_OF_BINS) ∧
          (bin_mode = .average → acq_protocol ≠ "TriggerCount" →
            d.1 = pyMax idxs + 1))) ∧
    (acq_protocol = "looped_periodic_acquisition" → 2 ≤ acquisition_infos.length →
      ∀ ch idxs rest, ∃ e,
        _generate_acq_declaration_dict seq repetitions acq_protocol bin_mode
          acquisition_infos ((ch, idxs) :: rest) = .error e) := by
  constructor
  · intro ch idxs d hok
    unfold declForChannel at hok
    by_cases h1 : pyMin idxs ≠ 0
    · rw [if_pos h1] at hok
      cases hok
    · rw [if_neg h1] at hok
      by_cases h2 : idxs.length ≠ pyMax idxs + 1
      · rw [if_pos h2] at hok
        cases hok
      · rw [if_neg h2] at hok
        by_cases h3 : idxs.length ≠ idxs.dedup.length
        · rw [if_pos h3] at hok
          cases hok
        · rw [if_neg h3] at hok
          by_cases hp : acq_protocol = "looped_periodic_acquisition"
          · rw [if_pos hp] at hok
            by_cases hl : 1 < acquisition_infos.length
            · rw [if_pos hl] at hok
              cases hok
            · rw [if_neg hl] at hok
              cases hok
              exact ⟨fun _ => ⟨by omega, rfl⟩, fun hnp => absurd hp hnp⟩
          · rw [if_neg hp] at hok
            cases hok
            refine ⟨fun hp' => absurd hp' hp, fun _ => ?_⟩
            refine ⟨fun hb => by simp [hb], fun hb ht => by simp [hb, ht],
              fun hb ht => by simp [hb, ht]⟩
  · intro hp hlen ch idxs rest
    have herr : ∃ e, declForChannel seq repetitions acq_protocol bin_mode
        acquisition_infos ch idxs = .error e := by
      unfold declForChannel
      by_cases h1 : pyMin idxs ≠ 0
      · exact ⟨_, by rw [if_pos h1]⟩
      · rw [if_neg h1]
        by_cases h2 : idxs.length ≠ pyMax idxs + 1
        · exact ⟨_, by rw [if_pos h2]⟩
        · rw [if_neg h2]
          by_cases h3 : idxs.length ≠ idxs.dedup.length
          · exact ⟨_, by rw [if_pos h3]⟩
          · rw [if_neg h3, if_pos hp, if_pos (by omega)]
            exact ⟨_, rfl⟩
    obtain ⟨e, he⟩ := herr
    exact ⟨e, by simp [_generate_acq_declaration_dict, he]⟩

/-- Witness for C3 (the spec's scenario): an append-mode acquisition over
3 repetitions with per-repetition indices 0 and 1 declares
`3 * (max + 1) = 6` bins. -/
theorem acq_declaration_num_bins_witness :
    (6 : Nat) = 3 * (pyMax [0, 1] + 1) :=
  ((((acq_declaration_num_bins {} 3 "SSBIntegrationComplex" BinMode.append []).1)
      0 [0, 1] (6, 0) (by decide)).2 (by decide)).1 rfl

/-- Modelled from the spec: each pulse strategy's `generate_data` adds its
waveform entries (name, sample count) to the shared waveform dict; a name
already present is not added again. -/
def addWfEntries (wf : List (String × Nat)) (entries : List (String × Nat)) :
    List (String × Nat) :=
  entries.foldl (fun wf e => if (wf.lookup e.1).isSome then wf else wf ++ [e]) wf

/-- The waveform dict built by the loop of `_generate_awg_dict`
(lines 575–577): `for pulse in self.pulses: pulse.generate_data(wf_dict)`. -/
def generate_awg_wf_dict (pulses : List OpStrategy) : List (String × Nat) :=
  pulses.foldl (fun wf p => addWfEntries wf p.wf_entries) []

/-- Embeds `total_size` of `_validate_awg_dict` (lines 623–625): the sum of the
sample counts of all waveforms in the dict. -/
def totalWfSize (wf : List (String × Nat)) : Nat := (wf.map Prod.snd).sum

/-- The fatal errors of `Sequencer.compile`. -/
inductive SeqCompileError where
  /-- Lines 626–632: `RuntimeError` naming the port-clock and the sizes. -/
  | waveformsExceedSampleLimit (port clock : String) (total limit : Nat)
  | acqDecl (e : AcqDeclError)
  | qasm (e : QasmError)
deriving DecidableEq, Repr

/-- Embeds `Sequencer._validate_awg_dict` (lines 622–632). -/
def _validate_awg_dict (seq : SequencerModel) (wf : List (String × Nat)) :
    Except SeqCompileError Unit :=
  if MAX_SAMPLE_SIZE_WAVEFORMS < totalWfSize wf then
    .error (.waveformsExceedSampleLimit seq.port seq.clock (totalWfSize wf)
      MAX_SAMPLE_SIZE_WAVEFORMS)
  else .ok ()

/-- Embeds `Sequencer._generate_awg_dict` (lines 537–579): build the waveform
dict, validate it against the sample limit, return it. -/
def _generate_awg_dict (seq : SequencerModel) :
    Except SeqCompileError (List (String × Nat)) :=
  let wf := generate_awg_wf_dict seq.pulses
  match _validate_awg_dict seq wf with
  | .error e => .error e
  | .ok _ => .ok wf

/-- Per-channel accumulation of acquisition indices in encounter order. -/
def addAcqIndex (m : List (Nat × List Nat)) (ch idx : Nat) :
    List (Nat × List Nat) :=
  match m with
  | [] => [(ch, [idx])]
  | (c, l) :: rest =>
    if c = ch then (c, l ++ [idx]) :: rest
    else (c, l) :: addAcqIndex rest ch idx

/-- Modelled from the spec:
`helpers.extract_acquisition_metadata_from_acquisitions` (not in the
source tree) — the per-channel map of acquisition indices of the
sequencer's acquisitions. -/
def extract_acq_indices (acqs : List OpInfo) : List (Nat × List Nat) :=
  acqs.foldl (fun m a => addAcqIndex m a.acq_channel a.acq_index) []

/-- The compiled program of one sequencer (`compile`'s non-`None` result):
program text, waveform dict and (for acquisition-capable modules) the bin
declarations. -/
structure CompiledSequencer where
  program : List Instr
  awg_dict : List (String × Nat)
  acq_declaration : Option (List (Nat × Nat))
deriving DecidableEq, Repr

/-- Embeds `Sequencer.compile` (lines 1072–1131): `None` when the sequencer has
no data (line 1096); otherwise the awg dict is generated **and validated
first** (line 1099), then the acquisition declarations (lines 1102–1112),
and only then the program text (lines 1114–1117).  (`_prepare_acq_settings`
and the weights dict mutate settings / raise only inside strategy classes
that live outside the source tree; the `sequence_to_file` dump is
filesystem-only.) -/
def seqAcqStep (seq : SequencerModel) (repetitions : Nat) :
    Except SeqCompileError (Option (List (Nat × Nat))) :=
  if seq.parent_supports_acquisition ∧ 0 < seq.acquisitions.length then
    match _generate_acq_declaration_dict seq repetitions
        (((seq.acquisitions.map OpStrategy.operation_info).headD default).protocol)
        (((seq.acquisitions.map OpStrategy.operation_info).headD default).bin_mode)
        (seq.acquisitions.map OpStrategy.operation_info)
        (extract_acq_indices (seq.acquisitions.map OpStrategy.operation_info)) with
    | .error e => .error (.acqDecl e)
    | .ok d => .ok (some d)
  else .ok (if seq.parent_supports_acquisition then some [] else none)

theorem seqAcqStep_no_waveform_error (seq : SequencerModel) (repetitions : Nat)
    (port clock : String) (total limit : Nat) :
    seqAcqStep seq repetitions ≠
      .error (.waveformsExceedSampleLimit port clock total limit) := by
  unfold seqAcqStep
  split
  · split <;> simp
  · simp

def seqCompile (seq : SequencerModel) (total_play_time : ℚ) (repetitions : Nat) :
    Except SeqCompileError (Option CompiledSequencer) :=
  if seq.acquisitions.length = 0 ∧ seq.pulses.length = 0 then .ok none
  else
    match _generate_awg_dict seq with
    | .error e => .error e
    | .ok awg =>
      match seqAcqStep seq repetitions with
      | .error e => .error e
      | .ok acqDecl =>
        match generate_qasm_program seq total_play_time repetitions with
        | .error e => .error (.qasm e)
        | .ok prog =>
          .ok (some { program := prog, awg_dict := awg, acq_declaration := acqDecl })

/-- C5. A sequencer whose total assigned waveform sample count exceeds
the hardware's sample limit fails compilation with the resource-limit
error naming the port-clock and the sizes, before any program text is
generated (the result does not depend on the program-generation stage);
within the limit, no such error is ever produced. -/
theorem waveform_memory_limit
    (seq : SequencerModel) (total_play_time : ℚ) (repetitions : Nat)
    (hdata : 0 < seq.pulses.length) :
    (MAX_SAMPLE_SIZE_WAVEFORMS < totalWfSize (generate_awg_wf_dict seq.pulses) →
      seqCompile seq total_play_time repetitions =
        .error (.waveformsExceedSampleLimit seq.port seq.clock
          (totalWfSize (generate_awg_wf_dict seq.pulses))
          MAX_SAMPLE_SIZE_WAVEFORMS)) ∧
    (totalWfSize (generate_awg_wf_dict seq.pulses) ≤ MAX_SAMPLE_SIZE_WAVEFORMS →
      ∀ e, seqCompile seq total_play_time repetitions = .error e →
        ∀ port clock total limit,
          e ≠ .waveformsExceedSampleLimit port clock total limit) := by
  have hnd : ¬ (seq.acquisitions.length = 0 ∧ seq.pulses.length = 0) := by
    intro h
    omega
  constructor
  · intro hover
    have hawg : _generate_awg_dict seq =
        .error (.waveformsExceedSampleLimit seq.port seq.clock
          (totalWfSize (generate_awg_wf_dict seq.pulses)) MAX_SAMPLE_SIZE_WAVEFORMS) := by
      unfold _generate_awg_dict _validate_awg_dict
      simp [hover]
    unfold seqCompile
    rw [if_neg hnd, hawg]
  · intro hunder e he
    have hawg : _generate_awg_dict seq = .ok (generate_awg_wf_dict seq.pulses) := by
      unfold _generate_awg_dict _validate_awg_dict
      simp [Nat.not_lt.mpr hunder]
    unfold seqCompile at he
    rw [if_neg hnd, hawg] at he
    simp only [] at he
    intro port clock total limit hcontra
    subst hcontra
    cases hacq : seqAcqStep seq repetitions with
    | error e2 =>
      rw [hacq] at he
      cases he
      exact seqAcqStep_no_waveform_error seq repetitions port clock total limit hacq
    | ok d =>
      rw [hacq] at he
      cases hq : generate_qasm_program seq total_play_time repetitions with
      | error e3 =>
        rw [hq] at he
        cases he
      | ok prog =>
        rw [hq] at he
        cases he

/-- Concrete sequencer for the waveform-limit witness: one pulse carrying
a 20000-sample waveform, exceeding the 16384-sample limit. -/
def c5pulse : OpStrategy :=
  { operation_info :=
      { name := "big_pulse", timing := mkRat 0 1,
        duration := mkRat 16 1000000000,
        is_real_time_io_operation := true, has_wf_func := true },
    wf_entries := [("big_waveform", 20000)] }

/-- Concrete sequencer for the waveform-limit witness. -/
def c5seq : SequencerModel :=
  { port := "q0:mw", clock := "q0.01", pulses := [c5pulse] }

/-- Witness for C5: `c5seq` fails with the waveform-limit error naming its
port-clock and both sizes. -/
theorem waveform_memory_limit_witness :
    seqCompile c5seq (mkRat 16 1000000000) 1 =
      .error (.waveformsExceedSampleLimit "q0:mw" "q0.01" 20000 16384) :=
  ((waveform_memory_limit c5seq (mkRat 16 1000000000) 1 (by decide)).1 (by decide)).trans
    (by decide)

/-- A frequency value as stored in `SequencerSettings.modulation_freq`:
NaN (float not-a-number) or an actual value. -/
inductive FreqV where
  | nan
  | val (v : ℚ)
deriving DecidableEq, Repr

/-- Embeds `math.isclose` with its default tolerances (`rel_tol = 1e-9`,
`abs_tol = 0.0`): `|a - b| ≤ max(rel_tol * max(|a|, |b|), abs_tol)`; any
comparison involving NaN is false.  Computed on numerators/denominators:
with `a = na/da`, `b = nb/db` (positive denominators) the condition is
`10^9 * |na*db - nb*da| ≤ max(|na|*db, |nb|*da)`. -/
def isclose : FreqV → FreqV → Bool
  | .val a, .val b =>
    1000000000 * (a.num * (b.den : Int) - b.num * (a.den : Int)).natAbs ≤
      max (a.num.natAbs * b.den) (b.num.natAbs * a.den)
  | _, _ => false

/-- The `ValueError` of the frequency setter (lines 528–532), carrying the
attempted new frequency and the previously stored one that its message
reports. -/
inductive FreqError where
  | overwrite (new old : FreqV)
deriving DecidableEq, Repr

/-- The `Sequencer.frequency` setter (lines 507–535): raise iff the stored
modulation frequency is set (not `None`), not NaN, and not close to the
new value; the `raise` precedes the assignment, so on error the stored
value is returned unchanged.  Otherwise the new frequency is stored (and
the NCO enabled, not modelled here).  Result: (stored frequency after the
call, raised error if any). -/
def setFrequency (stored : Option FreqV) (freq : FreqV) :
    Option FreqV × Option FreqError :=
  match stored with
  | some old =>
    if old ≠ FreqV.nan ∧ isclose old freq = false then
      (stored, some (.overwrite freq old))
    else (some freq, none)
  | none => (some freq, none)

/-- C6. The modulation frequency is write-once: setting from the unset
state (`None` or NaN) always succeeds; re-setting a stored value to a
close value succeeds silently; attempting to set a stored non-NaN value to
a value that is not close raises the error and leaves the stored frequency
unchanged. -/
theorem frequency_write_once (stored : Option FreqV) (freq : FreqV) :
    (stored = none ∨ stored = some FreqV.nan →
      setFrequency stored freq = (some freq, none)) ∧
    (∀ old, stored = some (FreqV.val old) → isclose (FreqV.val old) freq = true →
      setFrequency stored freq = (some freq, none)) ∧
    (∀ old, stored = some (FreqV.val old) → isclose (FreqV.val old) freq = false →
      setFrequency stored freq = (stored, some (.overwrite freq (FreqV.val old)))) := by
  refine ⟨?_, ?_, ?_⟩
  · rintro (rfl | rfl)
    · rfl
    · simp [setFrequency]
  · rintro old rfl hclose
    simp [setFrequency, hclose]
  · rintro old rfl hfar
    simp [setFrequency, hfar]

/-- Witness for C6: a stored 1 GHz frequency rejects an attempted change
to 1.1 GHz (not close) and stays stored; re-setting it to exactly 1 GHz
succeeds. -/
theorem frequency_write_once_witness :
    setFrequency (some (FreqV.val (mkRat 1000000000 1))) (FreqV.val (mkRat 1100000000 1)) =
      (some (FreqV.val (mkRat 1000000000 1)),
        some (.overwrite (FreqV.val (mkRat 1100000000 1)) (FreqV.val (mkRat 1000000000 1)))) ∧
    setFrequency (some (FreqV.val (mkRat 1000000000 1))) (FreqV.val (mkRat 1000000000 1)) =
      (some (FreqV.val (mkRat 1000000000 1)), none) :=
  ⟨(frequency_write_once (some (FreqV.val (mkRat 1000000000 1)))
      (FreqV.val (mkRat 1100000000 1))).2.2 (mkRat 1000000000 1) rfl (by decide),
   (frequency_write_once (some (FreqV.val (mkRat 1000000000 1)))
      (FreqV.val (mkRat 1000000000 1))).2.1 (mkRat 1000000000 1) rfl (by decide)⟩

/-- One sequencer as `_ensure_single_scope_mode_acquisition_sequencer`
sees it: its index and assigned acquisition infos. -/
structure SeqAcqView where
  index : Nat
  acquisitions : List OpInfo
deriving DecidableEq, Repr

/-- Embeds `is_scope_acquisition` (lines 1642–1643): the protocol is `"Trace"`. -/
def is_scope_acquisition (acq : OpInfo) : Bool := acq.protocol == "Trace"

/-- Whether a sequencer has at least one scope-mode (Trace) acquisition. -/
def hasScope (s : SeqAcqView) : Bool := s.acquisitions.any is_scope_acquisition

/-- Modelled from the spec: the fatal error of
`helpers.single_scope_mode_acquisition_raise` (not in the source tree),
"naming both sequencer indices" and the module. -/
inductive ScopeError where
  | multipleScopeSequencers (sequencer_0 sequencer_1 : Nat) (module_name : String)
deriving DecidableEq, Repr

/-- The loop of `_ensure_single_scope_mode_acquisition_sequencer`
(lines 1645–1657) with its `scope_acq_seq` accumulator. -/
def ensureSingleScopeGo (module_name : String) (scope_acq_seq : Option Nat) :
    List SeqAcqView → Except ScopeError Unit
  | [] => .ok ()
  | s :: rest =>
    if hasScope s then
      match scope_acq_seq with
      | some i => .error (.multipleScopeSequencers i s.index module_name)
      | none => ensureSingleScopeGo module_name (some s.index) rest
    else ensureSingleScopeGo module_name scope_acq_seq rest

/-- Embeds `QbloxBaseModule._ensure_single_scope_mode_acquisition_sequencer`
(lines 1627–1657). -/
def _ensure_single_scope_mode_acquisition_sequencer (module_name : String)
    (seqs : List SeqAcqView) : Except ScopeError Unit :=
  ensureSingleScopeGo module_name none seqs

theorem ensureSingleScopeGo_some (module_name : String) (i : Nat) :
    ∀ seqs : List SeqAcqView,
      ensureSingleScopeGo module_name (some i) seqs =
        match seqs.filter hasScope with
        | [] => .ok ()
        | s :: _ => .error (.multipleScopeSequencers i s.index module_name)
  | [] => rfl
  | s :: rest => by
    by_cases h : hasScope s
    · simp [ensureSingleScopeGo, h, List.filter_cons]
    · simp [ensureSingleScopeGo, h, List.filter_cons,
        ensureSingleScopeGo_some module_name i rest]

theorem ensureSingleScopeGo_none (module_name : String) :
    ∀ seqs : List SeqAcqView,
      ensureSingleScopeGo module_name none seqs =
        match seqs.filter hasScope with
        | [] => .ok ()
        | [_] => .ok ()
        | s :: t :: _ => .error (.multipleScopeSequencers s.index t.index module_name)
  | [] => rfl
  | s :: rest => by
    by_cases h : hasScope s
    · simp only [ensureSingleScopeGo, h, if_pos,
        ensureSingleScopeGo_some module_name s.index rest, List.filter_cons]
      cases rest.filter hasScope <;> simp [h]
    · simp only [ensureSingleScopeGo, h, List.filter_cons,
        ensureSingleScopeGo_none module_name rest]
      simp [h]

/-- C7. Per module, at most one sequencer may carry a Trace (scope
mode) acquisition: with two or more such sequencers the check fails with
the error naming the first two offending sequencer indices and the module;
with at most one it passes. -/
theorem single_scope_acquisition_sequencer (module_name : String)
    (seqs : List SeqAcqView) (d : SeqAcqView) :
    (2 ≤ (seqs.filter hasScope).length →
      _ensure_single_scope_mode_acquisition_sequencer module_name seqs =
        .error (.multipleScopeSequencers ((seqs.filter hasScope).getD 0 d).index
          ((seqs.filter hasScope).getD 1 d).index module_name)) ∧
    ((seqs.filter hasScope).length ≤ 1 →
      _ensure_single_scope_mode_acquisition_sequencer module_name seqs = .ok ()) := by
  unfold _ensure_single_scope_mode_acquisition_sequencer
  rw [ensureSingleScopeGo_none module_name seqs]
  constructor
  · intro h2
    match hf : seqs.filter hasScope with
    | [] => rw [hf] at h2; simp at h2
    | [_] => rw [hf] at h2; simp at h2
    | s :: t :: _ => rfl
  · intro h1
    match hf : seqs.filter hasScope with
    | [] => rfl
    | [_] => rfl
    | s :: t :: rest => rw [hf] at h1; simp at h1

/-- Sequencers for the scope witness: sequencers 0 and 2 both carry a
Trace acquisition. -/
def c7seqs : List SeqAcqView :=
  [ { index := 0, acquisitions :=
        [{ name := "trace", timing := mkRat 0 1, duration := mkRat 1 1000000,
           is_acquisition := true, protocol := "Trace" }] },
    { index := 1, acquisitions := [] },
    { index := 2, acquisitions :=
        [{ name := "trace2", timing := mkRat 0 1, duration := mkRat 1 1000000,
           is_acquisition := true, protocol := "Trace" }] } ]

/-- Witness for C7: two Trace-carrying sequencers (indices 0 and 2) of
module `"cluster0_module1"` are rejected with both indices named. -/
theorem single_scope_acquisition_sequencer_witness :
    _ensure_single_scope_mode_acquisition_sequencer "cluster0_module1" c7seqs =
      .error (.multipleScopeSequencers ((c7seqs.filter hasScope).getD 0 ⟨99, []⟩).index
        ((c7seqs.filter hasScope).getD 1 ⟨99, []⟩).index "cluster0_module1") :=
  (single_scope_acquisition_sequencer "cluster0_module1" c7seqs ⟨99, []⟩).1 (by decide)

/-- Embeds `any_other_updating_instruction_at_timing` (lines 1676–1681): some
operation on the port-clock is a real-time I/O operation within half a
grid tick of the given timing. -/
def any_other_updating_instruction_at_timing (pulses_and_acqs : List OpInfo)
    (timing : ℚ) : Bool :=
  pulses_and_acqs.any (fun op =>
    is_within_half_grid_time op.timing timing && op.is_real_time_io_operation)

/-- The synthetic `UpdateParameters` operation of lines 1695–1708:
zero duration, `upd_param` instruction, at the collected (rounded)
timing. -/
def mkUpdParam (port clock : String) (timing : ℚ) : OpInfo :=
  { name := "UpdateParameters", timing := timing, duration := mkRat 0 1,
    port := port, clock := clock, instruction := "upd_param" }

/-- One step of the triple collection of lines 1686–1693: an offset
instruction that is neither within half a grid tick of `total_play_time`
nor of any real-time I/O operation contributes its
(port, clock, nanosecond-rounded timing) triple. -/
def updParamStep (total_play_time : ℚ) (pulses_and_acqs : List OpInfo)
    (acc : List (String × String × ℚ)) (op : OpInfo) :
    List (String × String × ℚ) :=
  if op.is_offset_instruction = true ∧
      ¬ (is_within_half_grid_time total_play_time op.timing = true ∨
         any_other_updating_instruction_at_timing pulses_and_acqs op.timing = true) then
    if (op.port, op.clock, roundNsQ op.timing) ∈ acc then acc
    else acc ++ [(op.port, op.clock, roundNsQ op.timing)]
  else acc

/-- The `upd_param_infos` set of lines 1684–1693, as a list deduplicated
in encounter order (Python collects the triples into a `set`; none of the
claims depend on its iteration order). -/
def collectUpdParamTriples (total_play_time : ℚ) (pulses_and_acqs : List OpInfo) :
    List (String × String × ℚ) :=
  pulses_and_acqs.foldl (updParamStep total_play_time pulses_and_acqs) []

/-- Embeds `QbloxBaseModule._new_update_parameters_for_port_clock`
(lines 1672–1708). -/
def _new_update_parameters_for_port_clock (total_play_time : ℚ)
    (pulses_and_acqs : List OpInfo) : List OpInfo :=
  (collectUpdParamTriples total_play_time pulses_and_acqs).map
    (fun t => mkUpdParam t.1 t.2.1 t.2.2)

/-- Embeds `QbloxBaseModule._insert_update_parameters` (lines 1659–1670) for one
port-clock: the new update-parameter operations are appended to the
port-clock's pulse list. -/
def _insert_update_parameters (total_play_time : ℚ) (pulses acqs : List OpInfo) :
    List OpInfo :=
  pulses ++ _new_update_parameters_for_port_clock total_play_time (pulses ++ acqs)

/-- Concrete input refuting C8 as stated: a lone offset instruction at
`timing = total_play_time` (e.g. an offset reset at the very end of the
schedule), with no real-time I/O operation anywhere. -/
def c8op : OpInfo :=
  { name := "offset", timing := mkRat 100 1000000000, duration := mkRat 0 1,
    port := "q0:mw", clock := "q0.01", is_offset_instruction := true }

/-- Counterexample to C8 as stated: `c8op` is an offset instruction that
is not within half a grid tick of any real-time I/O operation on its
port-clock, yet no synthetic `UpdateParameters` operation is appended —
the code additionally skips offsets within half a grid tick of
`total_play_time` (line 1688), which the claim omits. -/
theorem update_parameters_counterexample :
    c8op.is_offset_instruction = true ∧
    any_other_updating_instruction_at_timing [c8op] c8op.timing = false ∧
    _new_update_parameters_for_port_clock (mkRat 100 1000000000) [c8op] = [] ∧
    _insert_update_parameters (mkRat 100 1000000000) [c8op] [] = [c8op] := by
  decide

/-- The amended condition: an offset instruction whose timing is neither
within half a grid tick of the end of the schedule (`total_play_time`) nor
within half a grid tick of any real-time I/O operation on the same
port-clock. -/
def updParamNeeded (total_play_time : ℚ) (pulses_and_acqs : List OpInfo)
    (op : OpInfo) : Prop :=
  op.is_offset_instruction = true ∧
  is_within_half_grid_time total_play_time op.timing = false ∧
  any_other_updating_instruction_at_timing pulses_and_acqs op.timing = false

theorem mem_foldl_updParamStep (total_play_time : ℚ) (all : List OpInfo) :
    ∀ (l : List OpInfo) (acc : List (String × String × ℚ))
      (x : String × String × ℚ),
      (x ∈ l.foldl (updParamStep total_play_time all) acc ↔
        x ∈ acc ∨ ∃ op ∈ l, updParamNeeded total_play_time all op ∧
          (op.port, op.clock, roundNsQ op.timing) = x) := by
  intro l
  induction l with
  | nil => simp
  | cons op rest ih =>
    intro acc x
    simp only [List.foldl_cons]
    rw [ih]
    have hstep : x ∈ updParamStep total_play_time all acc op ↔
        x ∈ acc ∨ (updParamNeeded total_play_time all op ∧
          (op.port, op.clock, roundNsQ op.timing) = x) := by
      unfold updParamStep updParamNeeded
      split
      · rename_i hcond
        split
        · rename_i hmem
          constructor
          · intro hx
            exact Or.inl hx
          · rintro (hx | ⟨-, rfl⟩)
            · exact hx
            · exact hmem
        · simp only [List.mem_append, List.mem_singleton]
          constructor
          · rintro (hx | rfl)
            · exact Or.inl hx
            · refine Or.inr ⟨⟨hcond.1, ?_, ?_⟩, rfl⟩
              · rcases h : is_within_half_grid_time total_play_time op.timing with _ | _
                · rfl
                · exact absurd (Or.inl h) hcond.2
              · rcases h : any_other_updating_instruction_at_timing all op.timing with _ | _
                · rfl
                · exact absurd (Or.inr h) hcond.2
          · rintro (hx | ⟨-, rfl⟩)
            · exact Or.inl hx
            · exact Or.inr rfl
      · rename_i hcond
        constructor
        · intro hx
          exact Or.inl hx
        · rintro (hx | ⟨⟨hoff, hhalf, hany⟩, rfl⟩)
          · exact hx
          · exact absurd ⟨hoff, by simp [hhalf, hany]⟩ hcond
    rw [hstep]
    constructor
    · rintro (( hx | hop) | ⟨op', hmem, hop'⟩)
      · exact Or.inl hx
      · exact Or.inr ⟨op, List.mem_cons_self op rest, hop⟩
      · exact Or.inr ⟨op', List.mem_cons_of_mem op hmem, hop'⟩
    · rintro (hx | ⟨op', hmem, hop'⟩)
      · exact Or.inl (Or.inl hx)
      · rcases List.mem_cons.mp hmem with rfl | hmem'
        · exact Or.inl (Or.inr hop')
        · exact Or.inr ⟨op', hmem', hop'⟩

theorem nodup_foldl_updParamStep (total_play_time : ℚ) (all : List OpInfo) :
    ∀ (l : List OpInfo) (acc : List (String × String × ℚ)),
      acc.Nodup → (l.foldl (updParamStep total_play_time all) acc).Nodup := by
  intro l
  induction l with
  | nil => exact fun acc h => h
  | cons op rest ih =>
    intro acc hacc
    simp only [List.foldl_cons]
    refine ih _ ?_
    unfold updParamStep
    split
    · split
      · exact hacc
      · rename_i hmem
        simp [List.nodup_append, hacc, hmem]
    · exact hacc

theorem mkUpdParam_injective :
    Function.Injective (fun t : String × String × ℚ => mkUpdParam t.1 t.2.1 t.2.2) := by
  rintro ⟨p, c, t⟩ ⟨p', c', t'⟩ h
  simp only [mkUpdParam, OpInfo.mk.injEq] at h
  obtain ⟨-, ht, -, hp, hc, -⟩ := h
  simp_all

/-- C8 (amended). During `prepare()`, for every queued offset
instruction whose timing is neither within half a grid tick of the end of
the schedule (`total_play_time`) nor within half a grid tick of any
real-time I/O operation on the same port-clock, exactly one synthetic
zero-duration `UpdateParameters` operation is appended to that
port-clock's pulse list at the operation's nanosecond-rounded timing —
and only such offsets produce one (offsets co-located with a real-time
I/O operation or with the schedule end get none). -/
theorem update_parameters_insertion_amended (total_play_time : ℚ)
    (pulses acqs : List OpInfo) (port clock : String) (tq : ℚ) :
    (mkUpdParam port clock tq ∈
        _new_update_parameters_for_port_clock total_play_time (pulses ++ acqs) ↔
      ∃ op ∈ pulses ++ acqs, updParamNeeded total_play_time (pulses ++ acqs) op ∧
        op.port = port ∧ op.clock = clock ∧ roundNsQ op.timing = tq) ∧
    (_new_update_parameters_for_port_clock total_play_time (pulses ++ acqs)).Nodup ∧
    _insert_update_parameters total_play_time pulses acqs =
      pulses ++ _new_update_parameters_for_port_clock total_play_time (pulses ++ acqs) := by
  refine ⟨?_, ?_, rfl⟩
  · unfold _new_update_parameters_for_port_clock collectUpdParamTriples
    rw [List.mem_map]
    constructor
    · rintro ⟨t, hmem, ht⟩
      have hinj : t = (port, clock, tq) := by
        apply mkUpdParam_injective
        exact ht
      subst hinj
      rw [mem_foldl_updParamStep] at hmem
      rcases hmem with hx | ⟨op, hop, hneed, htrip⟩
      · cases hx
      · simp only [Prod.ext_iff] at htrip
        exact ⟨op, hop, hneed, htrip.1, htrip.2.1, htrip.2.2⟩
    · rintro ⟨op, hop, hneed, hp, hc, ht⟩
      refine ⟨(op.port, op.clock, roundNsQ op.timing), ?_, by simp [hp, hc, ht]⟩
      rw [mem_foldl_updParamStep]
      exact Or.inr ⟨op, hop, hneed, rfl⟩
  · exact (nodup_foldl_updParamStep total_play_time (pulses ++ acqs) (pulses ++ acqs)
      []  List.nodup_nil).map mkUpdParam_injective

/-- The fatal errors around `hardware_compile`. -/
inductive CompileError where
  /-- The pre-MR328 old-hardware-config error of
      `helpers._pre_MR328_error_message`. -/
  | preMR328
  | other (msg : String)
deriving DecidableEq, Repr

/-- Embeds `hardware_compile` (`qblox_backend.py` lines 15–64) around its
migration check (lines 43–47).  `helpers.migrate_hw_config_to_MR328_spec`
(not in the source tree) and the container pipeline of lines 49–64 are
parameters.  Line 47 reads `ValueError(helpers._pre_MR328_error_message())`
with **no `raise`**: the error value is constructed and immediately
discarded — mirrored here by the unused `_unraised_value_error` binding —
and compilation falls through to the container on the unmigrated config. -/
def hardware_compile {Cfg Out : Type} [DecidableEq Cfg]
    (migrate_hw_config_to_MR328_spec : Cfg → Cfg)
    (pipeline : Cfg → Except CompileError Out)
    (hardware_cfg : Cfg) : Except CompileError Out :=
  let migrated_hw_config := migrate_hw_config_to_MR328_spec hardware_cfg
  let old_hw_config_spec := hardware_cfg ≠ migrated_hw_config
  let _unraised_value_error : Option CompileError :=
    if old_hw_config_spec then some CompileError.preMR328 else none
  pipeline hardware_cfg

/-- C10. `hardware_compile` never raises on an old-format (pre-
migration) hardware config: even when migration would change the config
(so the old format is detected), the constructed `ValueError` is never
raised and compilation proceeds exactly as the rest of the pipeline does
on the unmigrated config. -/
theorem hardware_compile_ignores_old_config {Cfg Out : Type} [DecidableEq Cfg]
    (migrate : Cfg → Cfg) (pipeline : Cfg → Except CompileError Out)
    (cfg : Cfg) (hold : cfg ≠ migrate cfg) :
    hardware_compile migrate pipeline cfg = pipeline cfg ∧
    (pipeline cfg ≠ .error CompileError.preMR328 →
      hardware_compile migrate pipeline cfg ≠ .error CompileError.preMR328) :=
  ⟨rfl, fun h => h⟩

/-- Witness for C10: a toy old-format config (`migrate` flips the
boolean, so the config is detected as old) still compiles to whatever the
pipeline yields. -/
theorem hardware_compile_ignores_old_config_witness :
    hardware_compile (fun b => !b) (fun _ => Except.ok (0 : Nat)) true =
      (fun _ : Bool => Except.ok (0 : Nat)) true :=
  (hardware_compile_ignores_old_config (fun b => !b)
    (fun _ => Except.ok (0 : Nat)) true (by decide)).1

end Qblox
